import Mathlib

/-!
Verification of the rt_map library: a keyed map (RtMap) and an indexed
sequence (RtVec) whose entries carry a per-value borrow-state flag, with
panicking (borrow, borrow_mut) and fallible (try_borrow, try_borrow_mut)
acquisition, RAII-style guards (Ref, RefMut) and an entry API.

Translation conventions:
- Interior mutability (flag updates through a shared reference) is made
  explicit: every operation that may update a borrow flag returns the
  updated container alongside its result.
- A Rust panic is an `Except.error msg` carrying the panic message; the
  fallible operations return `Except BorrowFail`.
- The files cell.rs, cell_ref.rs and cell_ref_mut.rs are declared in
  lib.rs but are not part of the provided sources; Cell, CellRef and
  CellRefMut are modelled from the specification (sections 3, 4.1 - 4.3),
  pinned by the test suites in ref.rs, ref_mut.rs and rt_map.rs.
-/

/-- Failures to borrow a value. Translated from src/borrow_fail.rs. -/
inductive BorrowFail
  | valueNotFound
  | borrowConflictImm
  | borrowConflictMut
  deriving DecidableEq, Repr

/-- Modelled from the spec: the per-value borrow-state machine of the missing
cell.rs. States are unborrowed, n live shared borrows, or one exclusive
borrow (spec section 3: "0: unborrowed; positive n: n live shared borrows;
a distinguished sentinel: exactly one live exclusive borrow"). -/
inductive BorrowState
  | unborrowed
  | shared (n : Nat)
  | exclusive
  deriving DecidableEq, Repr

namespace BorrowState

/-- Modelled from the spec: acquire_shared of the missing cell.rs. Fails on
exclusive, otherwise increments the shared count. `none` is the fatal or
rejected outcome. -/
def acquireShared : BorrowState → Option BorrowState
  | .exclusive => none
  | .unborrowed => some (.shared 1)
  | .shared n => some (.shared (n + 1))

/-- Modelled from the spec: duplicate_shared of the missing cell.rs, the
transition taken when cloning a live shared guard; the spec states it is
semantically identical to acquire_shared. -/
def duplicateShared (s : BorrowState) : Option BorrowState :=
  s.acquireShared

/-- Modelled from the spec: try_acquire_exclusive of the missing cell.rs.
Succeeds only from unborrowed, setting the exclusive sentinel. -/
def tryAcquireExclusive : BorrowState → Option BorrowState
  | .unborrowed => some .exclusive
  | .shared _ => none
  | .exclusive => none

/-- Modelled from the spec: release_shared of the missing cell.rs, run when a
shared guard is dropped. Decrements the count; fatal (`none`) if the state
was not in the shared-borrowed range. -/
def releaseShared : BorrowState → Option BorrowState
  | .shared 1 => some .unborrowed
  | .shared (n + 2) => some (.shared (n + 1))
  | _ => none

/-- Modelled from the spec: release_exclusive of the missing cell.rs, run when
an exclusive guard is dropped. Resets to unborrowed; fatal if the state was
not exclusive. -/
def releaseExclusive : BorrowState → Option BorrowState
  | .exclusive => some .unborrowed
  | _ => none

/-- Number of live shared borrows recorded in the state (the observed value
of the flag counter while no exclusive borrow is live). -/
def sharedCount : BorrowState → Nat
  | .unborrowed => 0
  | .shared n => n
  | .exclusive => 0

end BorrowState

/-- Modelled from the spec: the shared-guard payload of the missing
cell_ref.rs. The tests in ref.rs construct it as CellRef \x7b flag, value \x7d,
a reference to the borrow flag plus a reference to the value; `flag` here is
the flag value observed at acquisition. -/
structure CellRef (V : Type) where
  flag : BorrowState
  value : V
  deriving DecidableEq, Repr

/-- Modelled from the spec: the exclusive-guard payload of the missing
cell_ref_mut.rs, mirroring CellRef with mutable access to the value. -/
structure CellRefMut (V : Type) where
  flag : BorrowState
  value : V
  deriving DecidableEq, Repr

/-- Modelled from the spec: the Cell of the missing cell.rs — owns exactly one
value and one BorrowState. -/
structure Cell (V : Type) where
  value : V
  state : BorrowState
  deriving DecidableEq, Repr

/-- Modelled from the spec: the fatal message of the missing cell.rs when a
shared borrow is requested while an exclusive borrow is live; the tests in
rt_map.rs require it to contain "but it was already borrowed mutably". -/
def cellBorrowConflictMsg : String :=
  "Expected to borrow, but it was already borrowed mutably."

/-- Modelled from the spec: the fatal message of the missing cell.rs when an
exclusive borrow is requested while any borrow is live; the tests in
rt_map.rs require it to contain "but it was already borrowed". -/
def cellBorrowMutConflictMsg : String :=
  "Expected to borrow mutably, but it was already borrowed."

namespace Cell

variable {V : Type}

/-- Modelled from the spec: Cell::new — a cell starts unborrowed. -/
def new (v : V) : Cell V :=
  ⟨v, .unborrowed⟩

/-- Modelled from the spec: Cell::into_inner — consumes the cell and returns
the value; always succeeds under exclusive ownership, the flag is not
consulted. -/
def into_inner (c : Cell V) : V :=
  c.value

/-- Modelled from the spec: Cell::get_mut — direct access to the value under
exclusive ownership of the cell, bypassing the flag. -/
def get_mut (c : Cell V) : V :=
  c.value

/-- Modelled from the spec: Cell::try_borrow — non-fatal shared acquisition;
returns BorrowConflictImm exactly when the cell is exclusively held. -/
def try_borrow (c : Cell V) : Except BorrowFail (CellRef V × Cell V) :=
  match c.state.acquireShared with
  | some st => .ok (⟨st, c.value⟩, ⟨c.value, st⟩)
  | none => .error .borrowConflictImm

/-- Modelled from the spec: Cell::try_borrow_mut — non-fatal exclusive
acquisition; returns BorrowConflictMut when any borrow is live. -/
def try_borrow_mut (c : Cell V) : Except BorrowFail (CellRefMut V × Cell V) :=
  match c.state.tryAcquireExclusive with
  | some st => .ok (⟨st, c.value⟩, ⟨c.value, st⟩)
  | none => .error .borrowConflictMut

/-- Modelled from the spec: Cell::borrow — fatal shared acquisition; the
fatal message says the value was already borrowed mutably. -/
def borrow (c : Cell V) : Except String (CellRef V × Cell V) :=
  match c.state.acquireShared with
  | some st => .ok (⟨st, c.value⟩, ⟨c.value, st⟩)
  | none => .error cellBorrowConflictMsg

/-- Modelled from the spec: Cell::borrow_mut — fatal exclusive acquisition;
the fatal message says the value was already borrowed. -/
def borrow_mut (c : Cell V) : Except String (CellRefMut V × Cell V) :=
  match c.state.tryAcquireExclusive with
  | some st => .ok (⟨st, c.value⟩, ⟨c.value, st⟩)
  | none => .error cellBorrowMutConflictMsg

/-- Modelled from the spec: the Drop of a shared guard releases one shared
borrow on the cell; `none` is the fatal invariant violation. -/
def release_ref (c : Cell V) : Option (Cell V) :=
  c.state.releaseShared.map (⟨c.value, ·⟩)

/-- Modelled from the spec: the Drop of an exclusive guard clears the
exclusive borrow on the cell; `none` is the fatal invariant violation. -/
def release_ref_mut (c : Cell V) : Option (Cell V) :=
  c.state.releaseExclusive.map (⟨c.value, ·⟩)

end Cell

/-- Reference to a value: the public shared wrapper over CellRef.
Translated from src/ref.rs (the PhantomData field carries no data). -/
structure Ref (V : Type) where
  inner : CellRef V
  deriving DecidableEq, Repr

/-- Mutable reference to a value: the public exclusive wrapper over
CellRefMut. Translated from src/ref_mut.rs. -/
structure RefMut (V : Type) where
  inner : CellRefMut V
  deriving DecidableEq, Repr

namespace Ref

variable {V : Type}

/-- Translated from src/ref.rs: Ref::new. -/
def new (inner : CellRef V) : Ref V :=
  ⟨inner⟩

/-- Translated from src/ref.rs: Deref — yields the underlying value. -/
def deref (r : Ref V) : V :=
  r.inner.value

/-- Translated from src/ref.rs: PartialEq — compares the dereferenced
values. -/
def eq [BEq V] (a b : Ref V) : Bool :=
  a.deref == b.deref

/-- Translated from src/ref.rs: Debug — formats the dereferenced value in a
struct named Ref with field inner. -/
def debug_fmt (reprV : V → String) (r : Ref V) : String :=
  "Ref \x7b inner: " ++ reprV r.deref ++ " \x7d"

end Ref

/-- Modelled from the spec: Clone of the missing cell_ref.rs — duplicates the
guard, incrementing the shared count on the flag both guards reference. The
surrounding cell is passed explicitly, since the flag lives in it. -/
def CellRef.clone {V : Type} (cr : CellRef V) (c : Cell V) :
    Option (CellRef V × Cell V) :=
  c.state.duplicateShared.map fun st => (⟨st, cr.value⟩, ⟨c.value, st⟩)

/-- Translated from src/ref.rs: Clone for Ref delegates to the inner CellRef
clone. -/
def Ref.clone {V : Type} (r : Ref V) (c : Cell V) : Option (Ref V × Cell V) :=
  (r.inner.clone c).map fun p => (⟨p.1⟩, p.2)

namespace RefMut

variable {V : Type}

/-- Translated from src/ref_mut.rs: RefMut::new. -/
def new (inner : CellRefMut V) : RefMut V :=
  ⟨inner⟩

/-- Translated from src/ref_mut.rs: Deref — yields the underlying value. -/
def deref (r : RefMut V) : V :=
  r.inner.value

/-- Translated from src/ref_mut.rs: PartialEq — compares the dereferenced
values. -/
def eq [BEq V] (a b : RefMut V) : Bool :=
  a.deref == b.deref

/-- Translated from src/ref_mut.rs: Debug — formats the dereferenced value in
a struct named RefMut with field inner. -/
def debug_fmt (reprV : V → String) (r : RefMut V) : String :=
  "RefMut \x7b inner: " ++ reprV r.deref ++ " \x7d"

end RefMut

/-- A map from keys to cells, as the abstract contents of the HashMap
underlying RtMap (src/rt_map.rs, `pub struct RtMap<K, V>(HashMap<K, Cell<V>>)`;
the spec places the storage behaviour of HashMap itself out of scope). -/
abbrev RtMap (K V : Type) : Type :=
  K → Option (Cell V)

/-- Translated from src/rt_map.rs: the fatal message of the borrow_panic
macro, formatting the offending key. -/
def mapBorrowPanicMsg (keyRepr : String) : String :=
  "Expected to borrow `" ++ keyRepr ++ "`, but it does not exist."

namespace RtMap

variable {K V : Type} [DecidableEq K]

/-- Translated from src/rt_map.rs: RtMap::new — the empty map. -/
def new : RtMap K V :=
  fun _ => none

/-- Store a cell under a key: the write-back of a flag update through the
interior mutability of the stored cell, made explicit. -/
def update (m : RtMap K V) (k : K) (c : Cell V) : RtMap K V :=
  fun q => if q = k then some c else m q

/-- Translated from src/rt_map.rs: RtMap::insert — replaces the cell and
returns the prior value through Cell::into_inner. -/
def insert (m : RtMap K V) (k : K) (v : V) : Option V × RtMap K V :=
  ((m k).map Cell.into_inner, m.update k (Cell.new v))

/-- Translated from src/rt_map.rs: RtMap::remove — removes the cell and
returns its value through Cell::into_inner. -/
def remove (m : RtMap K V) (k : K) : Option V × RtMap K V :=
  ((m k).map Cell.into_inner, fun q => if q = k then none else m q)

/-- Translated from src/rt_map.rs: RtMap::contains_key. -/
def contains_key (m : RtMap K V) (k : K) : Bool :=
  (m k).isSome

/-- Translated from src/rt_map.rs: RtMap::borrow — looks the key up, borrows
the cell, and panics with the borrow_panic message if the key is absent.
`reprK` stands for the Debug formatting of the key. -/
def borrow (reprK : K → String) (m : RtMap K V) (k : K) :
    Except String (Ref V) × RtMap K V :=
  match m k with
  | none => (.error (mapBorrowPanicMsg (reprK k)), m)
  | some c =>
    match c.borrow with
    | .error msg => (.error msg, m)
    | .ok (cr, c') => (.ok (Ref.new cr), m.update k c')

/-- Translated from src/rt_map.rs: RtMap::try_borrow — ValueNotFound if the
key is absent, otherwise Cell::try_borrow mapped through Ref::new. -/
def try_borrow (m : RtMap K V) (k : K) :
    Except BorrowFail (Ref V) × RtMap K V :=
  match m k with
  | none => (.error .valueNotFound, m)
  | some c =>
    match c.try_borrow with
    | .error e => (.error e, m)
    | .ok (cr, c') => (.ok (Ref.new cr), m.update k c')

/-- Translated from src/rt_map.rs: RtMap::borrow_mut — looks the key up,
mutably borrows the cell, and panics with the borrow_panic message if the
key is absent. -/
def borrow_mut (reprK : K → String) (m : RtMap K V) (k : K) :
    Except String (RefMut V) × RtMap K V :=
  match m k with
  | none => (.error (mapBorrowPanicMsg (reprK k)), m)
  | some c =>
    match c.borrow_mut with
    | .error msg => (.error msg, m)
    | .ok (crm, c') => (.ok (RefMut.new crm), m.update k c')

/-- Translated from src/rt_map.rs: RtMap::try_borrow_mut — ValueNotFound if
the key is absent, otherwise Cell::try_borrow_mut mapped through
RefMut::new. -/
def try_borrow_mut (m : RtMap K V) (k : K) :
    Except BorrowFail (RefMut V) × RtMap K V :=
  match m k with
  | none => (.error .valueNotFound, m)
  | some c =>
    match c.try_borrow_mut with
    | .error e => (.error e, m)
    | .ok (crm, c') => (.ok (RefMut.new crm), m.update k c')

/-- Drop of a live shared guard on the entry at `k`: releases one shared
borrow on that cell (modelled from the spec, Drop of the missing
cell_ref.rs). -/
def release_at (m : RtMap K V) (k : K) : Option (RtMap K V) :=
  match m k with
  | none => none
  | some c => c.release_ref.map (m.update k)

/-- Drop of a live exclusive guard on the entry at `k`: clears the exclusive
borrow on that cell (modelled from the spec, Drop of the missing
cell_ref_mut.rs). -/
def release_mut_at (m : RtMap K V) (k : K) : Option (RtMap K V) :=
  match m k with
  | none => none
  | some c => c.release_ref_mut.map (m.update k)

end RtMap

namespace Entry

variable {K V : Type} [DecidableEq K]

/-- Translated from src/entry.rs: Entry::or_insert_with over
RtMap::entry (src/rt_map.rs) — if the key is vacant, evaluates `f`, inserts
Cell::new of its result, then mutably borrows the stored cell. The closure
`f` is effectful in Rust (FnOnce); its effect is embedded as explicit state
passing over a closure-state type `S`, so that the number of evaluations is
observable in the final closure state. -/
def or_insert_with {S : Type} (m : RtMap K V) (k : K) (f : S → S × V)
    (s : S) : Except String (RefMut V) × RtMap K V × S :=
  match m k with
  | some c =>
    match c.borrow_mut with
    | .error msg => (.error msg, m, s)
    | .ok (crm, c') => (.ok (RefMut.new crm), m.update k c', s)
  | none =>
    let sv := f s
    let c := Cell.new sv.2
    match c.borrow_mut with
    | .error msg => (.error msg, m.update k c, sv.1)
    | .ok (crm, c') => (.ok (RefMut.new crm), m.update k c', sv.1)

/-- Translated from src/entry.rs: Entry::or_insert delegates to
or_insert_with with the closure returning the captured value. -/
def or_insert (m : RtMap K V) (k : K) (v : V) :
    Except String (RefMut V) × RtMap K V :=
  let r := or_insert_with m k (fun u : Unit => (u, v)) ()
  (r.1, r.2.1)

end Entry

/-- A sequence of cells, as the contents of the Vec underlying RtVec
(src/rt_vec.rs, `pub struct RtVec<V>(Vec<Cell<V>>)`). -/
abbrev RtVec (V : Type) : Type :=
  List (Cell V)

/-- Translated from src/rt_vec.rs: the fatal message of the borrow_panic
macro, formatting the offending index. -/
def vecBorrowPanicMsg (index : Nat) : String :=
  "Expected to borrow index `" ++ toString index ++ "`, but it does not exist."

namespace RtVec

variable {V : Type}

/-- Translated from src/rt_vec.rs: RtVec::new — the empty sequence. -/
def new : RtVec V :=
  []

/-- Translated from src/rt_vec.rs: RtVec::push — appends Cell::new of the
value. -/
def push (v : RtVec V) (x : V) : RtVec V :=
  v ++ [Cell.new x]

/-- Translated from src/rt_vec.rs: RtVec::insert — inserts Cell::new of the
value at the index, shifting later elements right; fatal (`none`) if the
index exceeds the length. -/
def insert (v : RtVec V) (i : Nat) (x : V) : Option (RtVec V) :=
  if i ≤ v.length then some (v.insertIdx i (Cell.new x)) else none

/-- Length of the underlying sequence. -/
def len (v : RtVec V) : Nat :=
  v.length

/-- Translated from src/rt_vec.rs: RtVec::remove — removes the cell at the
index (Vec::remove, shifting later elements left) and returns its value
through Cell::into_inner; fatal (`none`) if the index is out of bounds. -/
def remove (v : RtVec V) (i : Nat) : Option (V × RtVec V) :=
  match v[i]? with
  | some c => some (Cell.into_inner c, v.eraseIdx i)
  | none => none

/-- Translated from src/rt_vec.rs: RtVec::swap_remove — removes the cell at
the index, moving the former last cell into its place (Vec::swap_remove),
and returns its value through Cell::into_inner; fatal (`none`) if the index
is out of bounds. -/
def swap_remove (v : RtVec V) (i : Nat) : Option (V × RtVec V) :=
  match v[i]?, v[v.length - 1]? with
  | some c, some last => some (Cell.into_inner c, v.dropLast.set i last)
  | _, _ => none

/-- Translated from src/rt_vec.rs: RtVec::borrow — fatal with the
borrow_panic message if the index is out of bounds, otherwise
Cell::borrow. -/
def borrow (v : RtVec V) (i : Nat) : Except String (Ref V) × RtVec V :=
  match v[i]? with
  | none => (.error (vecBorrowPanicMsg i), v)
  | some c =>
    match c.borrow with
    | .error msg => (.error msg, v)
    | .ok (cr, c') => (.ok (Ref.new cr), v.set i c')

/-- Translated from src/rt_vec.rs: RtVec::try_borrow — ValueNotFound if the
index is out of bounds, otherwise Cell::try_borrow. -/
def try_borrow (v : RtVec V) (i : Nat) :
    Except BorrowFail (Ref V) × RtVec V :=
  match v[i]? with
  | none => (.error .valueNotFound, v)
  | some c =>
    match c.try_borrow with
    | .error e => (.error e, v)
    | .ok (cr, c') => (.ok (Ref.new cr), v.set i c')

/-- Translated from src/rt_vec.rs: RtVec::borrow_mut — fatal with the
borrow_panic message if the index is out of bounds, otherwise
Cell::borrow_mut. -/
def borrow_mut (v : RtVec V) (i : Nat) : Except String (RefMut V) × RtVec V :=
  match v[i]? with
  | none => (.error (vecBorrowPanicMsg i), v)
  | some c =>
    match c.borrow_mut with
    | .error msg => (.error msg, v)
    | .ok (crm, c') => (.ok (RefMut.new crm), v.set i c')

/-- Translated from src/rt_vec.rs: RtVec::try_borrow_mut — ValueNotFound if
the index is out of bounds, otherwise Cell::try_borrow_mut. -/
def try_borrow_mut (v : RtVec V) (i : Nat) :
    Except BorrowFail (RefMut V) × RtVec V :=
  match v[i]? with
  | none => (.error .valueNotFound, v)
  | some c =>
    match c.try_borrow_mut with
    | .error e => (.error e, v)
    | .ok (crm, c') => (.ok (RefMut.new crm), v.set i c')

/-- Translated from src/rt_vec.rs: RtVec::get — returns none (without any
fatal outcome) if the index is out of bounds, otherwise Cell::borrow, which
is still fatal on an exclusive conflict. -/
def get (v : RtVec V) (i : Nat) : Except String (Option (Ref V)) × RtVec V :=
  match v[i]? with
  | none => (.ok none, v)
  | some c =>
    match c.borrow with
    | .error msg => (.error msg, v)
    | .ok (cr, c') => (.ok (some (Ref.new cr)), v.set i c')

end RtVec

/-- Modelled from the spec: iterated shared release — dropping a number of
live shared guards on one entry in sequence. -/
def BorrowState.releaseSharedN : Nat → BorrowState → Option BorrowState
  | 0, s => some s
  | n + 1, s => s.releaseShared.bind (releaseSharedN n)

/-- Modelled from the spec: dropping a number of live shared guards on the
entry at `k` in sequence. -/
def RtMap.release_n {K V : Type} [DecidableEq K] (m : RtMap K V) (k : K) :
    Nat → Option (RtMap K V)
  | 0 => some m
  | n + 1 => (m.release_at k).bind fun m' => m'.release_n k n

/-- Helper: evaluation of Cell.try_borrow by state. -/
theorem cell_try_borrow_eq {V : Type} (c : Cell V) :
    c.try_borrow =
      match c.state with
      | .exclusive => .error .borrowConflictImm
      | .unborrowed => .ok (⟨.shared 1, c.value⟩, ⟨c.value, .shared 1⟩)
      | .shared n => .ok (⟨.shared (n + 1), c.value⟩, ⟨c.value, .shared (n + 1)⟩) := by
  cases h : c.state <;>
    simp [Cell.try_borrow, BorrowState.acquireShared, h]

/-- Helper: evaluation of Cell.try_borrow_mut by state. -/
theorem cell_try_borrow_mut_eq {V : Type} (c : Cell V) :
    c.try_borrow_mut =
      match c.state with
      | .unborrowed => .ok (⟨.exclusive, c.value⟩, ⟨c.value, .exclusive⟩)
      | _ => .error .borrowConflictMut := by
  cases h : c.state <;>
    simp [Cell.try_borrow_mut, BorrowState.tryAcquireExclusive, h]

/-- C1: for every RtMap and key k, try_borrow(k) and try_borrow_mut(k) never
panic (they are total, Except-valued) and return exactly: ValueNotFound when
k is absent; BorrowConflictImm when a shared borrow is requested while an
exclusive borrow on the entry of k is live; BorrowConflictMut when an
exclusive borrow is requested while any borrow (shared or exclusive) on the
entry of k is live; and a guard to the stored value otherwise. -/
theorem rtMap_try_borrow_try_borrow_mut_cases {K V : Type} [DecidableEq K]
    (m : RtMap K V) (k : K) :
    (m k = none →
      m.try_borrow k = (.error .valueNotFound, m) ∧
      m.try_borrow_mut k = (.error .valueNotFound, m)) ∧
    (∀ c : Cell V, m k = some c →
      (c.state = .exclusive →
        m.try_borrow k = (.error .borrowConflictImm, m) ∧
        m.try_borrow_mut k = (.error .borrowConflictMut, m)) ∧
      (∀ n : Nat, c.state = .shared n →
        (∃ r : Ref V,
          m.try_borrow k = (.ok r, m.update k ⟨c.value, .shared (n + 1)⟩) ∧
          r.deref = c.value) ∧
        m.try_borrow_mut k = (.error .borrowConflictMut, m)) ∧
      (c.state = .unborrowed →
        (∃ r : Ref V,
          m.try_borrow k = (.ok r, m.update k ⟨c.value, .shared 1⟩) ∧
          r.deref = c.value) ∧
        (∃ w : RefMut V,
          m.try_borrow_mut k = (.ok w, m.update k ⟨c.value, .exclusive⟩) ∧
          w.deref = c.value))) := by
  constructor
  · intro h
    constructor <;> simp [RtMap.try_borrow, RtMap.try_borrow_mut, h]
  · intro c hc
    refine ⟨fun hs => ?_, fun n hs => ?_, fun hs => ?_⟩
    · constructor <;>
        simp [RtMap.try_borrow, RtMap.try_borrow_mut, hc,
          cell_try_borrow_eq, cell_try_borrow_mut_eq, hs]
    · refine ⟨⟨Ref.new ⟨.shared (n + 1), c.value⟩, ?_, rfl⟩, ?_⟩ <;>
        simp [RtMap.try_borrow, RtMap.try_borrow_mut, hc,
          cell_try_borrow_eq, cell_try_borrow_mut_eq, hs, Ref.new]
    · refine ⟨⟨Ref.new ⟨.shared 1, c.value⟩, ?_, rfl⟩,
        ⟨RefMut.new ⟨.exclusive, c.value⟩, ?_, rfl⟩⟩ <;>
        simp [RtMap.try_borrow, RtMap.try_borrow_mut, hc,
          cell_try_borrow_eq, cell_try_borrow_mut_eq, hs, Ref.new, RefMut.new]

/-- Witness for C1 at a concrete map holding one exclusively borrowed entry:
a shared attempt reports BorrowConflictImm. -/
theorem rtMap_try_borrow_try_borrow_mut_cases_witness :
    RtMap.try_borrow
        (fun q : Nat => if q = 0 then some ⟨(5 : Nat), .exclusive⟩ else none) 0 =
      (.error .borrowConflictImm,
        fun q : Nat => if q = 0 then some ⟨(5 : Nat), .exclusive⟩ else none) :=
  (((rtMap_try_borrow_try_borrow_mut_cases
      (fun q : Nat => if q = 0 then some ⟨(5 : Nat), .exclusive⟩ else none) 0).2
    ⟨5, .exclusive⟩ (by decide)).1 rfl).1

/-- Helper: evaluation of Cell.borrow by state. -/
theorem cell_borrow_eq {V : Type} (c : Cell V) :
    c.borrow =
      match c.state with
      | .exclusive => .error cellBorrowConflictMsg
      | .unborrowed => .ok (⟨.shared 1, c.value⟩, ⟨c.value, .shared 1⟩)
      | .shared n => .ok (⟨.shared (n + 1), c.value⟩, ⟨c.value, .shared (n + 1)⟩) := by
  cases h : c.state <;>
    simp [Cell.borrow, BorrowState.acquireShared, h]

/-- Helper: evaluation of Cell.borrow_mut by state. -/
theorem cell_borrow_mut_eq {V : Type} (c : Cell V) :
    c.borrow_mut =
      match c.state with
      | .unborrowed => .ok (⟨.exclusive, c.value⟩, ⟨c.value, .exclusive⟩)
      | _ => .error cellBorrowMutConflictMsg := by
  cases h : c.state <;>
    simp [Cell.borrow_mut, BorrowState.tryAcquireExclusive, h]

/-- Helper: the absent-key fatal message always ends in the fixed tail naming
the missing-key condition, whatever the key formats to. -/
theorem mapBorrowPanicMsg_suffix (s : String) :
    "`, but it does not exist.".data <:+ (mapBorrowPanicMsg s).data := by
  have h : mapBorrowPanicMsg s =
      ("Expected to borrow `" ++ s) ++ "`, but it does not exist." := rfl
  rw [h, String.data_append]
  exact List.suffix_append _ _

/-- C2: borrow(k) and borrow_mut(k) fail fatally both when k is absent and on
a borrow conflict, and the fatal diagnostics distinguish the three cases:
the absent-key message says the key does not exist and names the key, the
shared-while-exclusively-held message says already borrowed mutably, the
exclusive-while-borrowed message says already borrowed, and no key
formatting can make the absent-key message coincide with either conflict
message. -/
theorem rtMap_borrow_fatal_distinguishes {K V : Type} [DecidableEq K]
    (reprK : K → String) (m : RtMap K V) (k : K) :
    (m k = none →
      m.borrow reprK k = (.error (mapBorrowPanicMsg (reprK k)), m) ∧
      m.borrow_mut reprK k = (.error (mapBorrowPanicMsg (reprK k)), m) ∧
      "does not exist".data <:+: (mapBorrowPanicMsg (reprK k)).data ∧
      (reprK k).data <:+: (mapBorrowPanicMsg (reprK k)).data) ∧
    (∀ c : Cell V, m k = some c →
      (c.state = .exclusive →
        m.borrow reprK k = (.error cellBorrowConflictMsg, m) ∧
        "already borrowed mutably".data <:+: cellBorrowConflictMsg.data) ∧
      (c.state ≠ .unborrowed →
        m.borrow_mut reprK k = (.error cellBorrowMutConflictMsg, m) ∧
        "already borrowed".data <:+: cellBorrowMutConflictMsg.data)) ∧
    (∀ s : String, mapBorrowPanicMsg s ≠ cellBorrowConflictMsg ∧
      mapBorrowPanicMsg s ≠ cellBorrowMutConflictMsg) ∧
    cellBorrowConflictMsg ≠ cellBorrowMutConflictMsg := by
  refine ⟨fun h => ⟨?_, ?_, ?_, ?_⟩, fun c hc => ⟨fun hs => ⟨?_, ?_⟩, fun hs => ⟨?_, ?_⟩⟩,
    fun s => ⟨fun h => ?_, fun h => ?_⟩, by decide⟩
  · simp [RtMap.borrow, h]
  · simp [RtMap.borrow_mut, h]
  · exact ((by decide : "does not exist".data <:+: "`, but it does not exist.".data).trans
      (mapBorrowPanicMsg_suffix (reprK k)).isInfix)
  · exact ⟨"Expected to borrow `".data, "`, but it does not exist.".data, by
      simp [mapBorrowPanicMsg, String.data_append]⟩
  · simp [RtMap.borrow, hc, cell_borrow_eq, hs]
  · decide
  · cases hst : c.state with
    | unborrowed => exact absurd hst hs
    | shared n => simp [RtMap.borrow_mut, hc, cell_borrow_mut_eq, hst]
    | exclusive => simp [RtMap.borrow_mut, hc, cell_borrow_mut_eq, hst]
  · decide
  · exact (by decide :
      ¬ "`, but it does not exist.".data <:+ cellBorrowConflictMsg.data)
      (h ▸ mapBorrowPanicMsg_suffix s)
  · exact (by decide :
      ¬ "`, but it does not exist.".data <:+ cellBorrowMutConflictMsg.data)
      (h ▸ mapBorrowPanicMsg_suffix s)

/-- Witness for C2 at the empty map: borrowing an absent key reports the
missing-key fatal message. -/
theorem rtMap_borrow_fatal_distinguishes_witness :
    RtMap.borrow (fun n : Nat => toString n)
        (fun _ : Nat => (none : Option (Cell Nat))) 3 =
      (.error (mapBorrowPanicMsg (toString 3)),
        fun _ : Nat => (none : Option (Cell Nat))) :=
  ((rtMap_borrow_fatal_distinguishes (fun n : Nat => toString n)
    (fun _ : Nat => (none : Option (Cell Nat))) 3).1 rfl).1

/-- Helper: dropping the n + 1 live shared guards on the entry at k, one by
one, drives that entry back to unborrowed and touches no other key. -/
theorem rtMap_release_n_shared {K V : Type} [DecidableEq K] (n : Nat) :
    ∀ (m : RtMap K V) (k : K) (v : V), m k = some ⟨v, .shared (n + 1)⟩ →
      ∃ m', m.release_n k (n + 1) = some m' ∧
        m' k = some ⟨v, .unborrowed⟩ ∧ ∀ q, q ≠ k → m' q = m q := by
  induction n with
  | zero =>
    intro m k v h
    refine ⟨m.update k ⟨v, .unborrowed⟩, ?_, ?_, ?_⟩
    · simp [RtMap.release_n, RtMap.release_at, h, Cell.release_ref,
        BorrowState.releaseShared]
    · simp [RtMap.update]
    · intro q hq
      simp [RtMap.update, hq]
  | succ n ih =>
    intro m k v h
    have hrel : m.release_at k = some (m.update k ⟨v, .shared (n + 1)⟩) := by
      simp [RtMap.release_at, h, Cell.release_ref, BorrowState.releaseShared]
    have hup : (m.update k ⟨v, .shared (n + 1)⟩) k = some ⟨v, .shared (n + 1)⟩ := by
      simp [RtMap.update]
    obtain ⟨m', h1, h2, h3⟩ := ih (m.update k ⟨v, .shared (n + 1)⟩) k v hup
    refine ⟨m', ?_, h2, ?_⟩
    · show (m.release_at k).bind (fun m₁ => m₁.release_n k (n + 1)) = some m'
      rw [hrel]
      exact h1
    · intro q hq
      rw [h3 q hq]
      simp [RtMap.update, hq]

/-- C3: a rejected acquisition is state-preserving — on an entry whose state
is Shared(n) or Exclusive, a conflicting try_borrow or try_borrow_mut
returns an error and leaves the map (hence the entry state) exactly as it
was, so releasing the pre-existing guards afterwards returns the entry to
unborrowed. -/
theorem rtMap_rejected_acquire_preserves_state {K V : Type} [DecidableEq K]
    (m : RtMap K V) (k : K) (c : Cell V) (hc : m k = some c) :
    (c.state ≠ .unborrowed → m.try_borrow_mut k = (.error .borrowConflictMut, m)) ∧
    (c.state = .exclusive → m.try_borrow k = (.error .borrowConflictImm, m)) ∧
    (∀ n : Nat, c.state = .shared (n + 1) →
      ∃ m', m.release_n k (n + 1) = some m' ∧ m' k = some ⟨c.value, .unborrowed⟩) ∧
    (c.state = .exclusive →
      ∃ m', m.release_mut_at k = some m' ∧ m' k = some ⟨c.value, .unborrowed⟩) := by
  refine ⟨fun hs => ?_, fun hs => ?_, fun n hs => ?_, fun hs => ?_⟩
  · cases hst : c.state with
    | unborrowed => exact absurd hst hs
    | shared n => simp [RtMap.try_borrow_mut, hc, cell_try_borrow_mut_eq, hst]
    | exclusive => simp [RtMap.try_borrow_mut, hc, cell_try_borrow_mut_eq, hst]
  · simp [RtMap.try_borrow, hc, cell_try_borrow_eq, hs]
  · have h : m k = some ⟨c.value, .shared (n + 1)⟩ := by rw [hc]; cases c; simp_all
    obtain ⟨m', h1, h2, _⟩ := rtMap_release_n_shared n m k c.value h
    exact ⟨m', h1, h2⟩
  · refine ⟨m.update k ⟨c.value, .unborrowed⟩, ?_, ?_⟩
    · simp [RtMap.release_mut_at, hc, Cell.release_ref_mut,
        BorrowState.releaseExclusive, hs]
    · simp [RtMap.update]

/-- Witness for C3 at a concrete map holding one entry with two live shared
borrows: a conflicting exclusive attempt errors and leaves the map intact. -/
theorem rtMap_rejected_acquire_preserves_state_witness :
    RtMap.try_borrow_mut
        (fun q : Nat => if q = 0 then some ⟨(7 : Nat), .shared 2⟩ else none) 0 =
      (.error .borrowConflictMut,
        fun q : Nat => if q = 0 then some ⟨(7 : Nat), .shared 2⟩ else none) :=
  (rtMap_rejected_acquire_preserves_state
    (fun q : Nat => if q = 0 then some ⟨(7 : Nat), .shared 2⟩ else none) 0
    ⟨7, .shared 2⟩ (by decide)).1 (by decide)

/-- Helper: releasing n + 1 shared borrows in sequence from Shared(n + 1)
reaches unborrowed. -/
theorem releaseSharedN_drains (n : Nat) :
    BorrowState.releaseSharedN (n + 1) (.shared (n + 1)) = some .unborrowed := by
  induction n with
  | zero => rfl
  | succ n ih =>
    show (BorrowState.releaseShared (.shared (n + 2))).bind
      (BorrowState.releaseSharedN (n + 1)) = some .unborrowed
    have h : BorrowState.releaseShared (.shared (n + 2)) =
        some (.shared (n + 1)) := rfl
    rw [h]
    exact ih

/-- C4: cloning a live shared guard increments the observed borrow count of
the entry by exactly one and yields an independent guard to the same value;
each drop of a shared guard decrements the count by exactly one; after all
n + 1 guards are dropped the entry is unborrowed, and an exclusive
acquisition on an unborrowed cell succeeds. -/
theorem ref_clone_drop_balance {V : Type} (r : Ref V) (c : Cell V) (n : Nat)
    (h : c.state = .shared (n + 1)) :
    (∃ r' c', r.clone c = some (r', c') ∧
      c'.state = .shared (n + 2) ∧
      c'.state.sharedCount = c.state.sharedCount + 1 ∧
      c'.value = c.value ∧ r'.deref = r.deref) ∧
    (∀ (d : Cell V) (j : Nat), d.state = .shared (j + 1) →
      ∃ d', d.release_ref = some d' ∧
        d'.state.sharedCount + 1 = d.state.sharedCount ∧ d'.value = d.value) ∧
    BorrowState.releaseSharedN (n + 1) (.shared (n + 1)) = some .unborrowed ∧
    (∀ d : Cell V, d.state = .unborrowed →
      ∃ g d', d.try_borrow_mut = .ok (g, d') ∧
        d'.state = .exclusive ∧ g.value = d.value) := by
  refine ⟨?_, ?_, releaseSharedN_drains n, ?_⟩
  · refine ⟨⟨⟨.shared (n + 2), r.inner.value⟩⟩, ⟨c.value, .shared (n + 2)⟩, ?_, rfl, ?_, rfl, rfl⟩
    · simp [Ref.clone, CellRef.clone, BorrowState.duplicateShared,
        BorrowState.acquireShared, h]
    · simp [h, BorrowState.sharedCount]
  · intro d j hd
    cases j with
    | zero =>
      refine ⟨⟨d.value, .unborrowed⟩, ?_, ?_, rfl⟩
      · simp [Cell.release_ref, hd, BorrowState.releaseShared]
      · simp [hd, BorrowState.sharedCount]
    | succ j =>
      refine ⟨⟨d.value, .shared (j + 1)⟩, ?_, ?_, rfl⟩
      · simp [Cell.release_ref, hd, BorrowState.releaseShared]
      · simp [hd, BorrowState.sharedCount]
  · intro d hd
    exact ⟨⟨.exclusive, d.value⟩, ⟨d.value, .exclusive⟩, by
      simp [Cell.try_borrow_mut, BorrowState.tryAcquireExclusive, hd], rfl, rfl⟩

/-- Witness for C4 at a concrete cell with one live shared borrow: cloning
the guard moves the entry to two shared borrows. -/
theorem ref_clone_drop_balance_witness :
    ∃ r' c', Ref.clone ⟨⟨.shared 1, (9 : Nat)⟩⟩ ⟨9, .shared 1⟩ = some (r', c') ∧
      c'.state = .shared 2 ∧
      c'.state.sharedCount = (BorrowState.shared 1).sharedCount + 1 ∧
      c'.value = 9 ∧ r'.deref = (9 : Nat) :=
  (ref_clone_drop_balance ⟨⟨.shared 1, (9 : Nat)⟩⟩ ⟨9, .shared 1⟩ 0 rfl).1

/-- C5: entry(k).or_insert_with(f) evaluates f exactly once when k is absent
(the closure state advances by exactly one application, the result is
inserted) and not at all when k is present (the closure state is returned
untouched); in both cases it returns an exclusive guard to the value stored
under k; and after dropping that guard, a subsequent entry(k).or_insert(v2)
does not overwrite the stored value and returns a guard to the original
value. -/
theorem entry_or_insert_with_spec {K V S : Type} [DecidableEq K]
    (m : RtMap K V) (k : K) (f : S → S × V) (s : S) :
    (m k = none →
      Entry.or_insert_with m k f s =
        (.ok (RefMut.new ⟨.exclusive, (f s).2⟩),
          m.update k ⟨(f s).2, .exclusive⟩, (f s).1)) ∧
    (∀ c : Cell V, m k = some c → c.state = .unborrowed →
      Entry.or_insert_with m k f s =
        (.ok (RefMut.new ⟨.exclusive, c.value⟩),
          m.update k ⟨c.value, .exclusive⟩, s)) ∧
    (m k = none → ∀ v₂ : V,
      ∃ m₂, RtMap.release_mut_at (m.update k ⟨(f s).2, .exclusive⟩) k = some m₂ ∧
        m₂ k = some ⟨(f s).2, .unborrowed⟩ ∧
        Entry.or_insert m₂ k v₂ =
          (.ok (RefMut.new ⟨.exclusive, (f s).2⟩),
            m₂.update k ⟨(f s).2, .exclusive⟩)) := by
  refine ⟨fun h => ?_, fun c hc hs => ?_, fun h v₂ => ?_⟩
  · simp [Entry.or_insert_with, h, Cell.new, cell_borrow_mut_eq]
  · simp [Entry.or_insert_with, hc, cell_borrow_mut_eq, hs]
  · refine ⟨(m.update k ⟨(f s).2, .exclusive⟩).update k ⟨(f s).2, .unborrowed⟩,
      ?_, ?_, ?_⟩
    · simp [RtMap.release_mut_at, RtMap.update, Cell.release_ref_mut,
        BorrowState.releaseExclusive]
    · simp [RtMap.update]
    · have hocc : ((m.update k ⟨(f s).2, .exclusive⟩).update k
          ⟨(f s).2, .unborrowed⟩) k = some ⟨(f s).2, .unborrowed⟩ := by
        simp [RtMap.update]
      simp [Entry.or_insert, Entry.or_insert_with, hocc, cell_borrow_mut_eq]

/-- Witness for C5: on the empty map with a call-counting closure, the
closure is applied exactly once, its result 42 is stored exclusively
borrowed, and the counter advances from 0 to 1. -/
theorem entry_or_insert_with_spec_witness :
    Entry.or_insert_with (fun _ : Nat => (none : Option (Cell Nat))) 0
        (fun calls : Nat => (calls + 1, 42)) 0 =
      (.ok (RefMut.new ⟨.exclusive, 42⟩),
        RtMap.update (fun _ : Nat => (none : Option (Cell Nat))) 0
          ⟨42, .exclusive⟩, 1) :=
  (entry_or_insert_with_spec (fun _ : Nat => (none : Option (Cell Nat))) 0
    (fun calls : Nat => (calls + 1, 42)) 0).1 rfl

/-- C10: Entry::or_insert(v) is observably equivalent to
Entry::or_insert_with with the constant closure returning v: same returned
guard, same resulting map, and the closure state is untouched. -/
theorem entry_or_insert_refines_or_insert_with {K V S : Type} [DecidableEq K]
    (m : RtMap K V) (k : K) (v : V) (s : S) :
    (Entry.or_insert m k v).1 =
      (Entry.or_insert_with m k (fun t : S => (t, v)) s).1 ∧
    (Entry.or_insert m k v).2 =
      (Entry.or_insert_with m k (fun t : S => (t, v)) s).2.1 ∧
    (Entry.or_insert_with m k (fun t : S => (t, v)) s).2.2 = s := by
  cases hm : m k with
  | none => simp [Entry.or_insert, Entry.or_insert_with, hm, Cell.new, cell_borrow_mut_eq]
  | some c =>
    cases hb : c.borrow_mut with
    | error msg => simp [Entry.or_insert, Entry.or_insert_with, hm, hb]
    | ok p => simp [Entry.or_insert, Entry.or_insert_with, hm, hb]

/-- Helper: swap_remove succeeds at any in-bounds index, returning the value
of the cell there, with the tail-swapped list. -/
theorem rtVec_swap_remove_of_getElem {V : Type} (v : RtVec V) (i : Nat)
    (c : Cell V) (hc : v[i]? = some c) :
    ∃ lc : Cell V, v[v.length - 1]? = some lc ∧
      v.swap_remove i = some (c.value, v.dropLast.set i lc) := by
  have hi : i < v.length := by
    rcases List.getElem?_eq_some.mp hc with ⟨h, -⟩
    exact h
  have h1 : v.length - 1 < v.length := by omega
  obtain ⟨lc, hl⟩ : ∃ lc, v[v.length - 1]? = some lc :=
    ⟨_, List.getElem?_eq_getElem h1⟩
  refine ⟨lc, hl, ?_⟩
  simp [RtVec.swap_remove, hc, hl, Cell.into_inner]

/-- C6: for an in-bounds index i, remove(i) returns the value at position i
and shifts every later element one position left, preserving the order of
the remaining elements; swap_remove(i) returns the value at position i and
moves the former last element into position i, leaving all other elements
in place. -/
theorem rtVec_remove_swap_remove_order {V : Type} (v : RtVec V) (i : Nat)
    (c : Cell V) (hc : v[i]? = some c) :
    (∃ w : RtVec V, v.remove i = some (c.value, w) ∧
      w.length = v.length - 1 ∧
      (∀ j : Nat, j < i → w[j]? = v[j]?) ∧
      (∀ j : Nat, i ≤ j → w[j]? = v[j + 1]?)) ∧
    (∃ w : RtVec V, v.swap_remove i = some (c.value, w) ∧
      w.length = v.length - 1 ∧
      (∀ j : Nat, j < v.length - 1 → j ≠ i → w[j]? = v[j]?) ∧
      (i < v.length - 1 → w[i]? = v[v.length - 1]?)) := by
  have hi : i < v.length := by
    rcases List.getElem?_eq_some.mp hc with ⟨h, -⟩
    exact h
  constructor
  · refine ⟨v.eraseIdx i, ?_, ?_, ?_, ?_⟩
    · simp [RtVec.remove, hc, Cell.into_inner]
    · simp [List.length_eraseIdx, hi]
    · intro j hj
      simp [List.getElem?_eraseIdx, hj]
    · intro j hj
      simp [List.getElem?_eraseIdx, Nat.not_lt.mpr hj]
  · obtain ⟨lc, hl, hsw⟩ := rtVec_swap_remove_of_getElem v i c hc
    refine ⟨v.dropLast.set i lc, hsw, ?_, ?_, ?_⟩
    · simp
    · intro j hj hne
      rw [List.getElem?_set]
      simp only [if_neg (fun h : i = j => hne h.symm)]
      rw [List.dropLast_eq_take, List.getElem?_take, if_pos hj]
    · intro hlt
      rw [List.getElem?_set, if_pos rfl, if_pos (by simpa using hlt), hl]

/-- Witness for C6 on the sequence [10, 20]: both remove(0) and
swap_remove(0) return 10 and leave a one-element sequence. -/
theorem rtVec_remove_swap_remove_order_witness :
    ∃ w₁ w₂ : RtVec Nat,
      RtVec.remove [Cell.new 10, Cell.new 20] 0 = some (10, w₁) ∧ w₁.length = 1 ∧
      RtVec.swap_remove [Cell.new 10, Cell.new 20] 0 = some (10, w₂) ∧
      w₂.length = 1 := by
  obtain ⟨⟨w₁, h₁, hl₁, -, -⟩, ⟨w₂, h₂, hl₂, -, -⟩⟩ :=
    rtVec_remove_swap_remove_order (V := Nat) [Cell.new 10, Cell.new 20] 0
      (Cell.new 10) rfl
  exact ⟨w₁, w₂, h₁, hl₁, h₂, hl₂⟩

/-- C7: get(i) returns none, without any fatal outcome, when i is out of
range, and otherwise behaves exactly like borrow(i): it returns a shared
guard when no exclusive borrow is live on the entry, and fails fatally with
the already-borrowed-mutably message when the entry is exclusively
borrowed. -/
theorem rtVec_get_mirrors_borrow {V : Type} (v : RtVec V) (i : Nat) :
    (v.length ≤ i → RtVec.get v i = (.ok none, v)) ∧
    (i < v.length →
      (RtVec.get v i).1 = Except.map some (RtVec.borrow v i).1 ∧
      (RtVec.get v i).2 = (RtVec.borrow v i).2) ∧
    (∀ c : Cell V, v[i]? = some c →
      (c.state ≠ .exclusive → ∃ r : Ref V, ∃ v' : RtVec V,
        RtVec.get v i = (.ok (some r), v') ∧
        RtVec.borrow v i = (.ok r, v') ∧ r.deref = c.value) ∧
      (c.state = .exclusive →
        RtVec.get v i = (.error cellBorrowConflictMsg, v) ∧
        RtVec.borrow v i = (.error cellBorrowConflictMsg, v))) := by
  refine ⟨fun h => ?_, fun h => ?_, fun c hc => ⟨fun hs => ?_, fun hs => ?_⟩⟩
  · simp [RtVec.get, List.getElem?_eq_none h]
  · have hc := List.getElem?_eq_getElem h
    cases hb : Cell.borrow v[i] with
    | error msg => simp [RtVec.get, RtVec.borrow, hc, hb, Except.map]
    | ok p => simp [RtVec.get, RtVec.borrow, hc, hb, Except.map]
  · cases hst : c.state with
    | unborrowed =>
      refine ⟨Ref.new ⟨.shared 1, c.value⟩, v.set i ⟨c.value, .shared 1⟩, ?_, ?_, rfl⟩ <;>
        simp [RtVec.get, RtVec.borrow, hc, cell_borrow_eq, hst, Ref.new]
    | shared n =>
      refine ⟨Ref.new ⟨.shared (n + 1), c.value⟩,
        v.set i ⟨c.value, .shared (n + 1)⟩, ?_, ?_, rfl⟩ <;>
        simp [RtVec.get, RtVec.borrow, hc, cell_borrow_eq, hst, Ref.new]
    | exclusive => exact absurd hst hs
  · constructor <;> simp [RtVec.get, RtVec.borrow, hc, cell_borrow_eq, hs]

/-- Witness for C7 at the empty sequence: get(0) is none and not fatal. -/
theorem rtVec_get_mirrors_borrow_witness :
    RtVec.get ([] : RtVec Nat) 0 = (.ok none, ([] : RtVec Nat)) :=
  (rtVec_get_mirrors_borrow ([] : RtVec Nat) 0).1 (Nat.le_refl 0)

/-- C9: remove(i) and swap_remove(i) are partial at the public interface —
they fail fatally for every index at or beyond the length, and for every
in-bounds index they succeed, consuming the cell and returning its value
whatever the borrow flag of that cell holds. -/
theorem rtVec_remove_swap_remove_fatal_oob {V : Type} (v : RtVec V) (i : Nat) :
    (v.length ≤ i → v.remove i = none ∧ v.swap_remove i = none) ∧
    (∀ c : Cell V, v[i]? = some c →
      (∃ w : RtVec V, v.remove i = some (c.value, w)) ∧
      (∃ w : RtVec V, v.swap_remove i = some (c.value, w)) ∧
      (∀ st : BorrowState, ∃ w : RtVec V,
        RtVec.remove (v.set i ⟨c.value, st⟩) i = some (c.value, w)) ∧
      (∀ st : BorrowState, ∃ w : RtVec V,
        RtVec.swap_remove (v.set i ⟨c.value, st⟩) i = some (c.value, w))) := by
  refine ⟨fun h => ⟨?_, ?_⟩, fun c hc => ?_⟩
  · simp [RtVec.remove, List.getElem?_eq_none h]
  · cases hl : v[v.length - 1]? <;>
      simp [RtVec.swap_remove, List.getElem?_eq_none h, hl]
  · have hi : i < v.length := by
      rcases List.getElem?_eq_some.mp hc with ⟨h, -⟩
      exact h
    refine ⟨⟨v.eraseIdx i, ?_⟩, ?_, fun st => ?_, fun st => ?_⟩
    · simp [RtVec.remove, hc, Cell.into_inner]
    · obtain ⟨lc, -, hsw⟩ := rtVec_swap_remove_of_getElem v i c hc
      exact ⟨_, hsw⟩
    · have hset : (v.set i ⟨c.value, st⟩)[i]? = some ⟨c.value, st⟩ := by
        simp [List.getElem?_set, hi]
      exact ⟨(v.set i ⟨c.value, st⟩).eraseIdx i,
        by simp [RtVec.remove, hset, Cell.into_inner]⟩
    · have hset : (v.set i ⟨c.value, st⟩)[i]? = some ⟨c.value, st⟩ := by
        simp [List.getElem?_set, hi]
      obtain ⟨lc, -, hsw⟩ :=
        rtVec_swap_remove_of_getElem (v.set i ⟨c.value, st⟩) i ⟨c.value, st⟩ hset
      exact ⟨_, hsw⟩

/-- Witness for C9: on a one-element sequence whose only cell is exclusively
borrowed, remove(0) still succeeds and returns the value; remove(1) is
fatal. -/
theorem rtVec_remove_swap_remove_fatal_oob_witness :
    (∃ w : RtVec Nat, RtVec.remove [(⟨4, .exclusive⟩ : Cell Nat)] 0 = some (4, w)) ∧
    RtVec.remove [(⟨4, .exclusive⟩ : Cell Nat)] 1 = none :=
  ⟨((rtVec_remove_swap_remove_fatal_oob [(⟨4, .exclusive⟩ : Cell Nat)] 0).2
      ⟨4, .exclusive⟩ rfl).1,
    ((rtVec_remove_swap_remove_fatal_oob [(⟨4, .exclusive⟩ : Cell Nat)] 1).1
      (Nat.le_refl 1)).1⟩

/-- C8: equality on the public wrappers Ref and RefMut holds exactly when
the underlying values are equal, whatever borrow-state flag each guard
observes (guards over entries in different borrow states compare equal when
the values agree), and Debug formatting shows only the underlying value,
independent of the flag. -/
theorem wrapper_eq_debug_ignore_flag {V : Type} [BEq V] [LawfulBEq V]
    (f₁ f₂ : BorrowState) (x y : V) (reprV : V → String) :
    (Ref.eq ⟨⟨f₁, x⟩⟩ ⟨⟨f₂, y⟩⟩ = true ↔ x = y) ∧
    (RefMut.eq ⟨⟨f₁, x⟩⟩ ⟨⟨f₂, y⟩⟩ = true ↔ x = y) ∧
    Ref.debug_fmt reprV ⟨⟨f₁, x⟩⟩ = Ref.debug_fmt reprV ⟨⟨f₂, x⟩⟩ ∧
    RefMut.debug_fmt reprV ⟨⟨f₁, x⟩⟩ = RefMut.debug_fmt reprV ⟨⟨f₂, x⟩⟩ ∧
    Ref.debug_fmt reprV ⟨⟨f₁, x⟩⟩ = "Ref \x7b inner: " ++ reprV x ++ " \x7d" ∧
    RefMut.debug_fmt reprV ⟨⟨f₁, x⟩⟩ =
      "RefMut \x7b inner: " ++ reprV x ++ " \x7d" := by
  refine ⟨?_, ?_, rfl, rfl, rfl, rfl⟩ <;>
    simp [Ref.eq, RefMut.eq, Ref.deref, RefMut.deref]

/-- Witness for C8: two guards holding equal values over entries in
different borrow states compare equal. -/
theorem wrapper_eq_debug_ignore_flag_witness :
    Ref.eq (V := Nat) ⟨⟨.shared 1, 3⟩⟩ ⟨⟨.exclusive, 3⟩⟩ = true :=
  (wrapper_eq_debug_ignore_flag (V := Nat) (.shared 1) .exclusive 3 3
    toString).1.mpr rfl
